import Mathlib

/-!
Verification development for the SignalFx pyformance extension
(`signalfx/pyformance/registry.py`): a dimensional metrics registry layered
over a flat-namespace registry, a regex-based key-derivation registry, and
call-instrumentation decorators.

The source file `registry.py` is embedded faithfully as state-passing
functions.  Its external collaborators — the metadata store
(`signalfx/pyformance/metadata.py`, not available here) and the flat
`pyformance` registry — are modelled from the specification's interface
description.  Python metric objects are mutable references into the
registry; we model a returned metric instance as its storage key (a handle)
together with the updated registry state, and mutating calls (`inc`,
`update`, `mark`, scoped timing) as updates of the registry at that handle.
-/

set_option autoImplicit false

namespace SignalFx

/-- A Python runtime value, as far as the registry layer observes it:
integers, floats (modelled as rationals, plus a distinguished NaN), strings,
booleans, `None`, and values of proper subclasses of `int` / `float`
(whose runtime `type()` is not `int` / `float` itself). -/
inductive PyVal where
  | int (n : Int)
  | float (q : Rat)
  | nan
  | str (s : String)
  | bool (b : Bool)
  | none
  | intSub (n : Int)
  | floatSub (q : Rat)
deriving DecidableEq, Repr

/-- Python `type(v) in (int, float)` — the exact-runtime-type test performed by the
`hist_calls` decorator.  `bool` and proper subclasses of `int`/`float` fail
this test; `float("nan")` has type `float` and passes it. -/
def typeIsIntOrFloat : PyVal → Bool
  | .int _ => true
  | .float _ => true
  | .nan => true
  | _ => false

/-- A numeric scalar in the broad sense: any value that is numerically an
integer or floating-point scalar, including booleans (Python `bool` is a
subclass of `int`) and values of proper subclasses of `int`/`float`. -/
def isNumericScalar : PyVal → Bool
  | .int _ => true
  | .float _ => true
  | .nan => true
  | .bool _ => true
  | .intSub _ => true
  | .floatSub _ => true
  | _ => false

/-- A dimension set: a mapping dimension-name → dimension-value, passed as
keyword arguments in Python; modelled as an association list. -/
abbrev Dims := List (String × String)

/-- The kind of a metric instance held by the flat registry. -/
inductive MetricKind where
  | counter
  | histogram
  | meter
  | timer
  | gauge
deriving DecidableEq, Repr

/-- A metric instance as stored by the flat registry, carrying the
observations recorded into it.  Timer samples are abstracted to a count of
recorded durations (wall-clock values are not modelled). -/
inductive Metric where
  | counter (count : Int)
  | histogram (values : List PyVal)
  | meter (marks : Nat)
  | timer (samples : Nat)
  | gauge (value : Option PyVal) (default : PyVal)
deriving DecidableEq, Repr

/-- The kind of a metric instance. -/
def Metric.kind : Metric → MetricKind
  | .counter _ => .counter
  | .histogram _ => .histogram
  | .meter _ => .meter
  | .timer _ => .timer
  | .gauge _ _ => .gauge

/-- Python `Counter.inc()` — increment by one.  Identity on other kinds (a handle
obtained from `counter()` always refers to a counter). -/
def Metric.inc : Metric → Metric
  | .counter n => .counter (n + 1)
  | m => m

/-- Python `Histogram.update(v)` — record one observation. -/
def Metric.update (v : PyVal) : Metric → Metric
  | .histogram vs => .histogram (vs ++ [v])
  | m => m

/-- Python `Meter.mark()` — record one mark. -/
def Metric.mark : Metric → Metric
  | .meter n => .meter (n + 1)
  | m => m

/-- Exit of a timer's scoped-timing region — record one elapsed-time
sample. -/
def Metric.recordSample : Metric → Metric
  | .timer n => .timer (n + 1)
  | m => m

/-- Lookup in an association list (a Python `dict`, observed only through
key lookup). -/
def alookup {α : Type} : List (String × α) → String → Option α
  | [], _ => Option.none
  | (k, v) :: rest, key => if k = key then some v else alookup rest key

/-- Update the entry at a key of an association list, leaving other entries
unchanged (mutation of the object a handle refers to). -/
def aupdate {α : Type} (l : List (String × α)) (key : String) (f : α → α) :
    List (String × α) :=
  match l with
  | [] => []
  | (k, v) :: rest =>
    if k = key then (k, f v) :: rest else (k, v) :: aupdate rest key f

/-- Modelled from the spec: the Metadata Store
(`signalfx/pyformance/metadata.py`, `MetricMetadata`; the source file is
not available).  `register(name, dims)` returns a resolved storage key
"produced deterministically ... from (Metric Name, Dimension Set)" and
records the dimension mapping for later lookup; `clear()` removes all
recorded mappings. -/
structure MetricMetadata where
  entries : List (String × Dims)
deriving DecidableEq, Repr

/-- Modelled from the spec: the deterministic resolved-key function of the
Metadata Store, combining the metric name and the dimension set into one
flat string key. -/
def resolvedKey (name : String) (dims : Dims) : String :=
  name ++ (dims.map (fun kv => "." ++ kv.1 ++ "=" ++ kv.2)).foldl (· ++ ·) ""

/-- Modelled from the spec: `MetricMetadata.register(name, dims) -> key`:
returns the resolved key and records the key's dimension mapping. -/
def MetricMetadata.register (m : MetricMetadata) (name : String) (dims : Dims) :
    String × MetricMetadata :=
  let key := resolvedKey name dims
  (key, ⟨(key, dims) :: m.entries⟩)

/-- Modelled from the spec: `MetricMetadata.clear()` removes all recorded
mappings. -/
def MetricMetadata.clear (_ : MetricMetadata) : MetricMetadata := ⟨[]⟩

/-- Modelled from the spec: the external flat-namespace `pyformance`
registry — a map from string key to metric instance. -/
structure FlatRegistry where
  metrics : List (String × Metric)
deriving DecidableEq, Repr

/-- Modelled from the spec: the flat registry's get-or-create constructor.
If the key is absent, store a fresh instance; if present with the same
kind, return the existing instance; if present with a different kind,
surface a kind-conflict error ("requesting a different metric kind for an
already-registered resolved key is surfaced by the flat registry").
The returned `String` is the handle (storage key) of the instance. -/
def FlatRegistry.getOrCreate (fl : FlatRegistry) (key : String)
    (fresh : Metric) : Except String String × FlatRegistry :=
  match alookup fl.metrics key with
  | some m =>
    if m.kind = fresh.kind then (.ok key, fl)
    else (.error ("metric kind conflict at key " ++ key), fl)
  | Option.none => (.ok key, ⟨(key, fresh) :: fl.metrics⟩)

/-- Modelled from the spec: flat `counter(key)`. -/
def FlatRegistry.counter (fl : FlatRegistry) (key : String) :
    Except String String × FlatRegistry :=
  fl.getOrCreate key (.counter 0)

/-- Modelled from the spec: flat `histogram(key)`. -/
def FlatRegistry.histogram (fl : FlatRegistry) (key : String) :
    Except String String × FlatRegistry :=
  fl.getOrCreate key (.histogram [])

/-- Modelled from the spec: flat `meter(key)`. -/
def FlatRegistry.meter (fl : FlatRegistry) (key : String) :
    Except String String × FlatRegistry :=
  fl.getOrCreate key (.meter 0)

/-- Modelled from the spec: flat `timer(key)`. -/
def FlatRegistry.timer (fl : FlatRegistry) (key : String) :
    Except String String × FlatRegistry :=
  fl.getOrCreate key (.timer 0)

/-- Modelled from the spec: flat `gauge(key, gauge_fn, default)`. -/
def FlatRegistry.gauge (fl : FlatRegistry) (key : String)
    (g : Option PyVal) (default : PyVal) : Except String String × FlatRegistry :=
  fl.getOrCreate key (.gauge g default)

/-- Modelled from the spec: flat `add(key, instance)` — inserts the
caller-supplied metric instance; an already-registered key is surfaced as
the flat registry's own error. -/
def FlatRegistry.add (fl : FlatRegistry) (key : String) (metric : Metric) :
    Except String String × FlatRegistry :=
  match alookup fl.metrics key with
  | some _ => (.error ("metric already registered at key " ++ key), fl)
  | Option.none => (.ok key, ⟨(key, metric) :: fl.metrics⟩)

/-- Modelled from the spec: flat `clear()` — removes all metric
instances. -/
def FlatRegistry.clear (_ : FlatRegistry) : FlatRegistry := ⟨[]⟩

/-- Mutate the metric instance a handle refers to. -/
def FlatRegistry.updateAt (fl : FlatRegistry) (key : String)
    (f : Metric → Metric) : FlatRegistry :=
  ⟨aupdate fl.metrics key f⟩

/-- Source `MetricsRegistry` (the Dimensional Registry of `registry.py`): holds a
`MetricMetadata` store alongside the inherited flat registry state. -/
structure MetricsRegistry where
  metadata : MetricMetadata
  flat : FlatRegistry
deriving DecidableEq, Repr

/-- Constructor `MetricsRegistry()` — a freshly constructed registry. -/
def MetricsRegistry.new : MetricsRegistry := ⟨⟨[]⟩, ⟨[]⟩⟩

/-- Source `MetricsRegistry.add(key, metric, **dims)`: registers the key and
dimensions in the metadata store first, then inserts the caller-supplied
metric into the flat registry under the resolved key.  On a flat-registry
error the exception propagates; the metadata registration has already
happened. -/
def MetricsRegistry.add (r : MetricsRegistry) (key : String) (metric : Metric)
    (dims : Dims) : Except String String × MetricsRegistry :=
  let (rk, md) := r.metadata.register key dims
  let (res, fl) := r.flat.add rk metric
  (res, ⟨md, fl⟩)

/-- Source `MetricsRegistry.counter(key, **dims)`. -/
def MetricsRegistry.counter (r : MetricsRegistry) (key : String) (dims : Dims) :
    Except String String × MetricsRegistry :=
  let (rk, md) := r.metadata.register key dims
  let (res, fl) := r.flat.counter rk
  (res, ⟨md, fl⟩)

/-- Source `MetricsRegistry.histogram(key, **dims)`. -/
def MetricsRegistry.histogram (r : MetricsRegistry) (key : String)
    (dims : Dims) : Except String String × MetricsRegistry :=
  let (rk, md) := r.metadata.register key dims
  let (res, fl) := r.flat.histogram rk
  (res, ⟨md, fl⟩)

/-- Source `MetricsRegistry.gauge(key, gauge=None, default=float("nan"), **dims)`.
The Python default arguments are passed explicitly (`g = none`,
`default = .nan` at call sites that use the defaults). -/
def MetricsRegistry.gauge (r : MetricsRegistry) (key : String)
    (g : Option PyVal) (default : PyVal) (dims : Dims) :
    Except String String × MetricsRegistry :=
  let (rk, md) := r.metadata.register key dims
  let (res, fl) := r.flat.gauge rk g default
  (res, ⟨md, fl⟩)

/-- Source `MetricsRegistry.meter(key, **dims)`. -/
def MetricsRegistry.meter (r : MetricsRegistry) (key : String) (dims : Dims) :
    Except String String × MetricsRegistry :=
  let (rk, md) := r.metadata.register key dims
  let (res, fl) := r.flat.meter rk
  (res, ⟨md, fl⟩)

/-- Source `MetricsRegistry.timer(key, **dims)`. -/
def MetricsRegistry.timer (r : MetricsRegistry) (key : String) (dims : Dims) :
    Except String String × MetricsRegistry :=
  let (rk, md) := r.metadata.register key dims
  let (res, fl) := r.flat.timer rk
  (res, ⟨md, fl⟩)

/-- Source `MetricsRegistry.clear()`: clears the metadata store, then the flat
registry. -/
def MetricsRegistry.clear (r : MetricsRegistry) : MetricsRegistry :=
  ⟨r.metadata.clear, r.flat.clear⟩

/-- Modelled from the spec: abstract syntax of the compiled regular
expressions of Python's `re` module, covering the constructs the registry
uses — literal characters, the word class `\w`, concatenation,
alternation, greedy repetition, numbered capture groups, and the anchors
`^` and `$`. -/
inductive Regex where
  | eps
  | char (c : Char)
  | wordClass
  | seq (a b : Regex)
  | alt (a b : Regex)
  | star (a : Regex)
  | plus (a : Regex)
  | group (i : Nat) (a : Regex)
  | bol
  | eol
deriving DecidableEq, Repr

/-- Structural size of a regex, used to bound the matcher's fuel. -/
def Regex.size : Regex → Nat
  | .eps => 1
  | .char _ => 1
  | .wordClass => 1
  | .seq a b => a.size + b.size + 1
  | .alt a b => a.size + b.size + 1
  | .star a => a.size + 1
  | .plus a => a.size + 1
  | .group _ a => a.size + 1
  | .bol => 1
  | .eol => 1

/-- The largest group number occurring in a pattern: Python's
`re.Pattern.groups`. -/
def Regex.numGroups : Regex → Nat
  | .seq a b => max a.numGroups b.numGroups
  | .alt a b => max a.numGroups b.numGroups
  | .star a => a.numGroups
  | .plus a => a.numGroups
  | .group i a => max i a.numGroups
  | _ => 0

/-- Membership in `\w`: ASCII letters, digits and underscore (the fragment of
Python's word class the verified patterns rely on). -/
def isWordChar (c : Char) : Bool :=
  ('a' ≤ c && c ≤ 'z') || ('A' ≤ c && c ≤ 'Z') ||
  ('0' ≤ c && c ≤ '9') || c = '_'

/-- Captured-group assignments within one match attempt: group number →
captured text.  A later capture of the same group overwrites the earlier
one, as in Python. -/
abbrev Caps := List (Nat × String)

/-- Record a capture, overwriting any earlier capture of the same group. -/
def setCap (caps : Caps) (i : Nat) (v : String) : Caps :=
  (i, v) :: caps.filter (fun p => p.1 ≠ i)

/-- Look up a group's capture. -/
def getCap (caps : Caps) (i : Nat) : Option String :=
  (caps.find? (fun p => p.1 = i)).map Prod.snd

/-- The backtracking matcher of Python's `re`, on the full input `s` from
position `pos`: returns the list of possible outcomes `(end position,
captures)` in Python's backtracking priority order (alternation tries the
left branch first, repetition is greedy).  `fuel` bounds the recursion
structurally; `matchFuel` below always supplies enough for the verified
patterns. -/
def matchR (fuel : Nat) (s : List Char) (r : Regex) (pos : Nat)
    (caps : Caps) : List (Nat × Caps) :=
  match fuel with
  | 0 => []
  | fuel + 1 =>
    match r with
    | .eps => [(pos, caps)]
    | .char c =>
      match s.get? pos with
      | some c2 => if c2 = c then [(pos + 1, caps)] else []
      | Option.none => []
    | .wordClass =>
      match s.get? pos with
      | some c2 => if isWordChar c2 then [(pos + 1, caps)] else []
      | Option.none => []
    | .seq a b =>
      (matchR fuel s a pos caps).flatMap
        (fun pc => matchR fuel s b pc.1 pc.2)
    | .alt a b => matchR fuel s a pos caps ++ matchR fuel s b pos caps
    | .star a =>
      matchR fuel s (.seq a (.star a)) pos caps ++ [(pos, caps)]
    | .plus a => matchR fuel s (.seq a (.star a)) pos caps
    | .group i a =>
      (matchR fuel s a pos caps).map
        (fun pc => (pc.1, setCap pc.2 i (String.mk ((s.drop pos).take (pc.1 - pos)))))
    | .bol => if pos = 0 then [(pos, caps)] else []
    | .eol =>
      if pos = s.length ∨ (pos + 1 = s.length ∧ s.get? pos = some '\n') then
        [(pos, caps)]
      else []

/-- Fuel sufficient for the matcher on the verified patterns: generous in
both the pattern size and the input length, and always at least 2 so the
top two levels unfold definitionally. -/
def matchFuel (r : Regex) (s : List Char) : Nat :=
  (r.size + 2) * (2 * s.length + 4) + 2

/-- One match attempt of the compiled pattern at a fixed position: the
first outcome in backtracking priority order, as Python's `re` engine
returns it. -/
def tryMatchAt (r : Regex) (s : List Char) (pos : Nat) :
    Option (Nat × Caps) :=
  (matchR (matchFuel r s) s r pos []).head?

/-- Python `match.groups()`: the captures of all groups of the pattern, in group
order, `None` for a group that did not participate. -/
def matchGroups (r : Regex) (caps : Caps) : List (Option String) :=
  (List.range r.numGroups).map (fun i => getCap caps (i + 1))

/-- The scanning loop of `re.finditer`: starting at position `pos`, attempt
a match at each position not past the end of the input; on success yield
the match's captures and continue from the match's end (one position
further for a zero-width match), otherwise slide one position right.
`count` bounds the number of attempts; the scan advances at least one
position per attempt, so `s.length + 1` attempts from position 0 visit
every position. -/
def finditerAux (r : Regex) (s : List Char) : Nat → Nat → List Caps
  | 0, _ => []
  | count + 1, pos =>
    if s.length < pos then []
    else
      match tryMatchAt r s pos with
      | some (stop, caps) =>
        caps :: finditerAux r s count (if stop ≤ pos then pos + 1 else stop)
      | Option.none => finditerAux r s count (pos + 1)

/-- Python `pattern.finditer(key)`: all non-overlapping matches of the pattern in
the input, left to right, each reduced to its capture assignments. -/
def finditer (r : Regex) (s : String) : List Caps :=
  finditerAux r s.data (s.data.length + 1) 0

/-- Python truthiness of a `groups()` entry: `None` and the empty string
are falsy (the filter `if v` of `_get_key`). -/
def pyTruthy : Option String → Bool
  | Option.none => false
  | some v => v ≠ ""

/-- Source `RegexRegistry._get_key(key)` with the compiled pattern `p`:
`'/'.join(v for match in matches for v in match.groups() if v)`. -/
def getKeyFn (p : Regex) (key : String) : String :=
  String.intercalate "/"
    ((((finditer p key).map (matchGroups p)).flatten.filter pyTruthy).map
      (fun v => v.getD ""))

/-- The spec's description of the Derived Key: collect every non-empty
captured group from every match, in match order and group order, and join
them with `/`. -/
def derivedKeySpec (p : Regex) (s : String) : String :=
  String.intercalate "/"
    ((((finditer p s).map (matchGroups p)).flatten.filterMap id).filter
      (fun v => v ≠ ""))

/-- The compiled pattern `'^$'` — the default of `RegexRegistry`. -/
def emptyStringPattern : Regex := .seq .bol .eol

/-- Source `RegexRegistry`: a Dimensional Registry together with a compiled
pattern that rewrites every metric name before delegation. -/
structure RegexRegistry where
  reg : MetricsRegistry
  pattern : Regex
deriving DecidableEq, Repr

/-- Constructor `RegexRegistry.__init__(pattern=None)`: compile the supplied pattern,
or `'^$'` when none is supplied; the registry state starts fresh. -/
def RegexRegistry.init (p : Option Regex) : RegexRegistry :=
  ⟨MetricsRegistry.new, p.getD emptyStringPattern⟩

/-- Source `RegexRegistry._get_key(key)` on a registry instance. -/
def RegexRegistry.getKey (r : RegexRegistry) (key : String) : String :=
  getKeyFn r.pattern key

/-- Source `RegexRegistry.timer(key, **dims)`: delegate with the derived key. -/
def RegexRegistry.timer (r : RegexRegistry) (key : String) (dims : Dims) :
    Except String String × RegexRegistry :=
  let (res, m) := r.reg.timer (r.getKey key) dims
  (res, ⟨m, r.pattern⟩)

/-- Source `RegexRegistry.histogram(key, **dims)`: delegate with the derived
key. -/
def RegexRegistry.histogram (r : RegexRegistry) (key : String) (dims : Dims) :
    Except String String × RegexRegistry :=
  let (res, m) := r.reg.histogram (r.getKey key) dims
  (res, ⟨m, r.pattern⟩)

/-- Source `RegexRegistry.counter(key, **dims)`: delegate with the derived key. -/
def RegexRegistry.counter (r : RegexRegistry) (key : String) (dims : Dims) :
    Except String String × RegexRegistry :=
  let (res, m) := r.reg.counter (r.getKey key) dims
  (res, ⟨m, r.pattern⟩)

/-- Source `RegexRegistry.gauge(key, gauge=None, default=float("nan"), **dims)`:
delegate with the derived key. -/
def RegexRegistry.gauge (r : RegexRegistry) (key : String) (g : Option PyVal)
    (default : PyVal) (dims : Dims) : Except String String × RegexRegistry :=
  let (res, m) := r.reg.gauge (r.getKey key) g default dims
  (res, ⟨m, r.pattern⟩)

/-- Source `RegexRegistry.meter(key, **dims)`: delegate with the derived key. -/
def RegexRegistry.meter (r : RegexRegistry) (key : String) (dims : Dims) :
    Except String String × RegexRegistry :=
  let (res, m) := r.reg.meter (r.getKey key) dims
  (res, ⟨m, r.pattern⟩)

/-- Source `RegexRegistry.add`: not overridden — the inherited
`MetricsRegistry.add` runs on the raw key. -/
def RegexRegistry.add (r : RegexRegistry) (key : String) (metric : Metric)
    (dims : Dims) : Except String String × RegexRegistry :=
  let (res, m) := r.reg.add key metric dims
  (res, ⟨m, r.pattern⟩)

/-- The compiled pattern `(\w+)\.(\w+)` of the spec's examples. -/
def patWordDotWord : Regex :=
  .seq (.group 1 (.plus .wordClass))
    (.seq (.char '.') (.group 2 (.plus .wordClass)))

/-- Module-level accessor `counter(key, **dims)`: delegates to the global
registry, which is threaded explicitly as state. -/
def globalCounter (reg : MetricsRegistry) (key : String) (dims : Dims) :
    Except String String × MetricsRegistry :=
  reg.counter key dims

/-- Module-level accessor `histogram(key, **dims)`. -/
def globalHistogram (reg : MetricsRegistry) (key : String) (dims : Dims) :
    Except String String × MetricsRegistry :=
  reg.histogram key dims

/-- Module-level accessor `meter(key, **dims)`. -/
def globalMeter (reg : MetricsRegistry) (key : String) (dims : Dims) :
    Except String String × MetricsRegistry :=
  reg.meter key dims

/-- Module-level accessor `timer(key, **dims)`. -/
def globalTimer (reg : MetricsRegistry) (key : String) (dims : Dims) :
    Except String String × MetricsRegistry :=
  reg.timer key dims

/-- Module-level accessor `gauge(key, gauge=None, default=float("nan"),
**dims)`. -/
def globalGauge (reg : MetricsRegistry) (key : String) (g : Option PyVal)
    (default : PyVal) (dims : Dims) : Except String String × MetricsRegistry :=
  reg.gauge key g default dims

/-- A wrapped Python function, as produced by a decorator: it takes the
global-registry state and the call arguments and returns the call's
outcome (value or propagated exception) with the new registry state. -/
abbrev Wrapped (α : Type) :=
  MetricsRegistry → α → Except String PyVal × MetricsRegistry

/-- Source `count_calls_with_dims(**dims)` applied to a function `fn` whose
qualified name is `qualname`: on every invocation, increment the counter
named `"<qualname>_calls"` (with the dimensions) by one, then call the
wrapped function and return its result.  A wrapped-function exception
propagates after the increment. -/
def count_calls_with_dims {α : Type} (dims : Dims) (qualname : String)
    (fn : α → Except String PyVal) : Wrapped α :=
  fun reg a =>
    let (res, reg1) := globalCounter reg (qualname ++ "_calls") dims
    match res with
    | .error e => (.error e, reg1)
    | .ok h =>
      let reg2 := { reg1 with flat := reg1.flat.updateAt h Metric.inc }
      (fn a, reg2)

/-- Source `meter_calls_with_dims(**dims)` applied to `fn`: mark the meter
named `"<qualname>_calls"`, then call through. -/
def meter_calls_with_dims {α : Type} (dims : Dims) (qualname : String)
    (fn : α → Except String PyVal) : Wrapped α :=
  fun reg a =>
    let (res, reg1) := globalMeter reg (qualname ++ "_calls") dims
    match res with
    | .error e => (.error e, reg1)
    | .ok h =>
      let reg2 := { reg1 with flat := reg1.flat.updateAt h Metric.mark }
      (fn a, reg2)

/-- Source `hist_calls_with_dims(**dims)` applied to `fn`: obtain the
histogram named `"<qualname>_calls"`, call through, and record the return
value into the histogram exactly when `type(rtn) in (int, float)`; a
non-numeric return is passed through unrecorded, and a wrapped-function
exception propagates without recording. -/
def hist_calls_with_dims {α : Type} (dims : Dims) (qualname : String)
    (fn : α → Except String PyVal) : Wrapped α :=
  fun reg a =>
    let (res, reg1) := globalHistogram reg (qualname ++ "_calls") dims
    match res with
    | .error e => (.error e, reg1)
    | .ok h =>
      match fn a with
      | .error e => (.error e, reg1)
      | .ok rtn =>
        if typeIsIntOrFloat rtn then
          (.ok rtn, { reg1 with flat := reg1.flat.updateAt h (Metric.update rtn) })
        else (.ok rtn, reg1)

/-- Source `time_calls_with_dims(**dims)` applied to `fn`: obtain the timer
named `"<qualname>_calls"` and run the call inside the timer's scoped
timing region, which records one elapsed-time sample on every exit path —
also when the wrapped function raises, in which case the exception then
continues propagating. -/
def time_calls_with_dims {α : Type} (dims : Dims) (qualname : String)
    (fn : α → Except String PyVal) : Wrapped α :=
  fun reg a =>
    let (res, reg1) := globalTimer reg (qualname ++ "_calls") dims
    match res with
    | .error e => (.error e, reg1)
    | .ok h =>
      let out := fn a
      let reg2 := { reg1 with flat := reg1.flat.updateAt h Metric.recordSample }
      (out, reg2)

/-- Invoke a wrapped function once per argument in the list, threading the
registry state, and collect the call outcomes in order. -/
def runCalls {α : Type} (w : Wrapped α) (reg : MetricsRegistry) :
    List α → List (Except String PyVal) × MetricsRegistry
  | [] => ([], reg)
  | a :: rest =>
    let (res, reg1) := w reg a
    let (results, regF) := runCalls w reg1 rest
    (res :: results, regF)

/-- The current count of the counter stored at a key, when one is there. -/
def counterValueAt (reg : MetricsRegistry) (key : String) : Option Int :=
  match alookup reg.flat.metrics key with
  | some (.counter n) => some n
  | _ => Option.none

/-- The recorded observations of the histogram stored at a key. -/
def histValuesAt (reg : MetricsRegistry) (key : String) : Option (List PyVal) :=
  match alookup reg.flat.metrics key with
  | some (.histogram vs) => some vs
  | _ => Option.none

/-- The number of recorded samples of the timer stored at a key. -/
def timerSamplesAt (reg : MetricsRegistry) (key : String) : Option Nat :=
  match alookup reg.flat.metrics key with
  | some (.timer n) => some n
  | _ => Option.none

/-- The return values a `hist_calls`-wrapped function records: the values
among the successful returns whose exact runtime type is `int` or
`float`. -/
def recordedValues {α : Type} (fn : α → Except String PyVal) (args : List α) :
    List PyVal :=
  args.filterMap (fun a =>
    match fn a with
    | .ok v => if typeIsIntOrFloat v then some v else Option.none
    | .error _ => Option.none)

/-- Whether a call outcome is a propagated exception. -/
def exceptIsError {ε α : Type} : Except ε α → Bool
  | .error _ => true
  | .ok _ => false

/-- Python `re.fullmatch` for the modelled engine: whether some backtracking
outcome of a match attempt at position 0 consumes the entire input. -/
def regexFullMatch (r : Regex) (s : String) : Bool :=
  (matchR (matchFuel r s.data) s.data r 0 []).any (fun pc => pc.1 = s.data.length)

theorem alookup_aupdate_self {α : Type} (l : List (String × α)) (key : String)
    (f : α → α) : alookup (aupdate l key f) key = (alookup l key).map f := by
  induction l with
  | nil => rfl
  | cons kv rest ih =>
    obtain ⟨k, v⟩ := kv
    by_cases h : k = key <;> simp [aupdate, alookup, h, ih]

theorem filter_truthy_eq (l : List (Option String)) :
    (l.filter pyTruthy).map (fun v => v.getD "") =
      (l.filterMap id).filter (fun v => v ≠ "") := by
  induction l with
  | nil => rfl
  | cons o rest ih =>
    cases o with
    | none => simpa [pyTruthy] using ih
    | some v =>
      by_cases hv : v = "" <;> simp [pyTruthy, hv, ih]

/-- C1: every metric-creation operation of the Dimensional Registry (`add`,
`counter`, `histogram`, `gauge`, `meter`, `timer`) first registers the name
and dimension set in the Metadata Store, then delegates to the flat
registry's corresponding constructor (or insertion) at the resolved key —
not the original name — and returns exactly the flat registry's value: the
post-state's metadata component is precisely `register`'s output and the
result and flat component are precisely those of the flat-registry
operation at the resolved key. -/
theorem dimensional_ops_register_then_delegate (r : MetricsRegistry)
    (key : String) (dims : Dims) (metric : Metric) (g : Option PyVal)
    (d : PyVal) :
    (r.add key metric dims =
      ((r.flat.add (r.metadata.register key dims).1 metric).1,
       ⟨(r.metadata.register key dims).2,
        (r.flat.add (r.metadata.register key dims).1 metric).2⟩)) ∧
    (r.counter key dims =
      ((r.flat.counter (r.metadata.register key dims).1).1,
       ⟨(r.metadata.register key dims).2,
        (r.flat.counter (r.metadata.register key dims).1).2⟩)) ∧
    (r.histogram key dims =
      ((r.flat.histogram (r.metadata.register key dims).1).1,
       ⟨(r.metadata.register key dims).2,
        (r.flat.histogram (r.metadata.register key dims).1).2⟩)) ∧
    (r.gauge key g d dims =
      ((r.flat.gauge (r.metadata.register key dims).1 g d).1,
       ⟨(r.metadata.register key dims).2,
        (r.flat.gauge (r.metadata.register key dims).1 g d).2⟩)) ∧
    (r.meter key dims =
      ((r.flat.meter (r.metadata.register key dims).1).1,
       ⟨(r.metadata.register key dims).2,
        (r.flat.meter (r.metadata.register key dims).1).2⟩)) ∧
    (r.timer key dims =
      ((r.flat.timer (r.metadata.register key dims).1).1,
       ⟨(r.metadata.register key dims).2,
        (r.flat.timer (r.metadata.register key dims).1).2⟩)) :=
  ⟨rfl, rfl, rfl, rfl, rfl, rfl⟩

/-- C2: for every compiled pattern and input string, the Pattern Key
Registry's derived key equals the `/`-join of every non-empty captured
group from every non-overlapping match, in match order and group order
(the spec-side formulation `derivedKeySpec`); in particular, pattern
`(\w+)\.(\w+)` derives `"foo/bar"` from `"foo.bar"` and `""` from
`"nomatch"`. -/
theorem derived_key_joins_nonempty_groups :
    (∀ (p : Regex) (s : String), getKeyFn p s = derivedKeySpec p s) ∧
    getKeyFn patWordDotWord "foo.bar" = "foo/bar" ∧
    getKeyFn patWordDotWord "nomatch" = "" := by
  refine ⟨fun p s => ?_, by decide, by decide⟩
  unfold getKeyFn derivedKeySpec
  rw [filter_truthy_eq]

/-- C4: `clear()` leaves both the Metadata Store and the flat registry
entirely empty; the cleared registry is the freshly constructed registry,
so every subsequent registration (each of the six operations) behaves
exactly as on a fresh registry. -/
theorem clear_resets_registry (r : MetricsRegistry) (key : String)
    (dims : Dims) (metric : Metric) (g : Option PyVal) (d : PyVal) :
    r.clear.metadata.entries = [] ∧
    r.clear.flat.metrics = [] ∧
    r.clear = MetricsRegistry.new ∧
    r.clear.add key metric dims = MetricsRegistry.new.add key metric dims ∧
    r.clear.counter key dims = MetricsRegistry.new.counter key dims ∧
    r.clear.histogram key dims = MetricsRegistry.new.histogram key dims ∧
    r.clear.gauge key g d dims = MetricsRegistry.new.gauge key g d dims ∧
    r.clear.meter key dims = MetricsRegistry.new.meter key dims ∧
    r.clear.timer key dims = MetricsRegistry.new.timer key dims :=
  ⟨rfl, rfl, rfl, rfl, rfl, rfl, rfl, rfl, rfl⟩

/-- C5: every Pattern Key Registry metric constructor (`timer`,
`histogram`, `counter`, `gauge`, `meter`) passes the derived key — not
the raw input name — to the Dimensional Registry operation with the
dimension set unchanged, while `add` is not overridden and runs the
Dimensional Registry's `add` on the raw key. -/
theorem regex_ops_delegate_with_derived_key (r : RegexRegistry) (key : String)
    (dims : Dims) (metric : Metric) (g : Option PyVal) (d : PyVal) :
    (r.timer key dims =
      ((r.reg.timer (r.getKey key) dims).1,
       ⟨(r.reg.timer (r.getKey key) dims).2, r.pattern⟩)) ∧
    (r.histogram key dims =
      ((r.reg.histogram (r.getKey key) dims).1,
       ⟨(r.reg.histogram (r.getKey key) dims).2, r.pattern⟩)) ∧
    (r.counter key dims =
      ((r.reg.counter (r.getKey key) dims).1,
       ⟨(r.reg.counter (r.getKey key) dims).2, r.pattern⟩)) ∧
    (r.gauge key g d dims =
      ((r.reg.gauge (r.getKey key) g d dims).1,
       ⟨(r.reg.gauge (r.getKey key) g d dims).2, r.pattern⟩)) ∧
    (r.meter key dims =
      ((r.reg.meter (r.getKey key) dims).1,
       ⟨(r.reg.meter (r.getKey key) dims).2, r.pattern⟩)) ∧
    (r.add key metric dims =
      ((r.reg.add key metric dims).1,
       ⟨(r.reg.add key metric dims).2, r.pattern⟩)) :=
  ⟨rfl, rfl, rfl, rfl, rfl, rfl⟩

theorem matchR_emptyStringPattern (n : Nat) (l : List Char) :
    matchR (n + 2) l emptyStringPattern 0 [] =
      if 0 = l.length ∨ (0 + 1 = l.length ∧ l.get? 0 = some '\n') then
        [(0, ([] : Caps))]
      else [] := by
  show matchR (n + 1) l .eol 0 [] ++ [] = _
  rw [List.append_nil]
  rfl

theorem fullMatch_empty_aux (l : List Char) :
    (matchR (matchFuel emptyStringPattern l) l emptyStringPattern 0 []).any
      (fun pc => pc.1 = l.length) = decide (l = []) := by
  rw [show matchFuel emptyStringPattern l =
        (emptyStringPattern.size + 2) * (2 * l.length + 4) + 2 from rfl]
  rw [matchR_emptyStringPattern]
  cases l with
  | nil => rfl
  | cons c rest =>
    split_ifs with hcond
    · simp
    · simp

theorem emptyStringPattern_matches_only_empty (s : String) :
    regexFullMatch emptyStringPattern s = true ↔ s = "" := by
  obtain ⟨l⟩ := s
  unfold regexFullMatch
  rw [fullMatch_empty_aux]
  constructor
  · intro h
    have : l = [] := by simpa using h
    rw [this]
  · intro h
    have : l = [] := by
      have := congrArg String.data h
      simpa using this
    simp [this]

theorem flatten_matchGroups_empty (l : List Caps) :
    (l.map (matchGroups emptyStringPattern)).flatten = [] := by
  induction l with
  | nil => rfl
  | cons c rest ih =>
    have hgroups : matchGroups emptyStringPattern c = [] := rfl
    simp [hgroups, ih]

theorem getKeyFn_emptyStringPattern (s : String) :
    getKeyFn emptyStringPattern s = "" := by
  unfold getKeyFn
  rw [flatten_matchGroups_empty]
  rfl

/-- C3: a Pattern Key Registry constructed without a pattern argument uses
the compiled pattern `^$`, whose full matches are exactly the empty
string; consequently the derived key is `""` for every input, and each
metric-constructor operation passes the empty string on to the underlying
Dimensional Registry operation. -/
theorem default_pattern_collapses_keys (base : MetricsRegistry) (s : String)
    (dims : Dims) (g : Option PyVal) (d : PyVal) :
    (RegexRegistry.init Option.none).pattern = emptyStringPattern ∧
    (∀ s2 : String, regexFullMatch emptyStringPattern s2 = true ↔ s2 = "") ∧
    (∀ s2 : String, getKeyFn emptyStringPattern s2 = "") ∧
    (RegexRegistry.mk base emptyStringPattern).counter s dims =
      ((base.counter "" dims).1, ⟨(base.counter "" dims).2, emptyStringPattern⟩) ∧
    (RegexRegistry.mk base emptyStringPattern).histogram s dims =
      ((base.histogram "" dims).1, ⟨(base.histogram "" dims).2, emptyStringPattern⟩) ∧
    (RegexRegistry.mk base emptyStringPattern).meter s dims =
      ((base.meter "" dims).1, ⟨(base.meter "" dims).2, emptyStringPattern⟩) ∧
    (RegexRegistry.mk base emptyStringPattern).timer s dims =
      ((base.timer "" dims).1, ⟨(base.timer "" dims).2, emptyStringPattern⟩) ∧
    (RegexRegistry.mk base emptyStringPattern).gauge s g d dims =
      ((base.gauge "" g d dims).1, ⟨(base.gauge "" g d dims).2, emptyStringPattern⟩) := by
  refine ⟨rfl, emptyStringPattern_matches_only_empty, getKeyFn_emptyStringPattern,
    ?_, ?_, ?_, ?_, ?_⟩ <;>
    simp [RegexRegistry.counter, RegexRegistry.histogram, RegexRegistry.meter,
      RegexRegistry.timer, RegexRegistry.gauge, RegexRegistry.getKey,
      getKeyFn_emptyStringPattern]

/-- C9: for every Dimensional Registry operation, the Metadata Store
registration happens before the flat registry is invoked: the post-state's
metadata is `register`'s output unconditionally, so when the flat registry
raises (concretely: requesting a histogram at a key holding a counter) the
new dimension association is nevertheless retained — the operation is not
atomic with respect to flat-registry errors. -/
theorem metadata_registration_not_atomic (r : MetricsRegistry) (key : String)
    (dims : Dims) (metric : Metric) (g : Option PyVal) (d : PyVal) :
    (r.add key metric dims).2.metadata = (r.metadata.register key dims).2 ∧
    (r.counter key dims).2.metadata = (r.metadata.register key dims).2 ∧
    (r.histogram key dims).2.metadata = (r.metadata.register key dims).2 ∧
    (r.gauge key g d dims).2.metadata = (r.metadata.register key dims).2 ∧
    (r.meter key dims).2.metadata = (r.metadata.register key dims).2 ∧
    (r.timer key dims).2.metadata = (r.metadata.register key dims).2 ∧
    exceptIsError ((MetricsRegistry.new.counter "k" []).2.histogram "k" []).1
      = true ∧
    ((MetricsRegistry.new.counter "k" []).2.histogram "k" []).2.metadata.entries
      = [("k", []), ("k", [])] :=
  ⟨rfl, rfl, rfl, rfl, rfl, rfl, by decide, by decide⟩

theorem count_step {α : Type} (dims : Dims) (qn : String)
    (fn : α → Except String PyVal) (reg : MetricsRegistry) (n : Int) (a : α)
    (h : alookup reg.flat.metrics (resolvedKey (qn ++ "_calls") dims) =
      some (.counter n)) :
    count_calls_with_dims dims qn fn reg a =
      (fn a, ⟨(reg.metadata.register (qn ++ "_calls") dims).2,
              reg.flat.updateAt (resolvedKey (qn ++ "_calls") dims) Metric.inc⟩) := by
  simp [count_calls_with_dims, globalCounter, MetricsRegistry.counter,
    MetricMetadata.register, FlatRegistry.counter, FlatRegistry.getOrCreate, h,
    Metric.kind]

theorem countCalls_run {α : Type} (dims : Dims) (qn : String)
    (fn : α → Except String PyVal) (args : List α) :
    ∀ (reg : MetricsRegistry) (n : Int),
      alookup reg.flat.metrics (resolvedKey (qn ++ "_calls") dims) =
        some (.counter n) →
      (runCalls (count_calls_with_dims dims qn fn) reg args).1 = args.map fn ∧
      counterValueAt (runCalls (count_calls_with_dims dims qn fn) reg args).2
        (resolvedKey (qn ++ "_calls") dims) = some (n + args.length) := by
  induction args with
  | nil =>
    intro reg n h
    exact ⟨rfl, by simp [runCalls, counterValueAt, h]⟩
  | cons a rest ih =>
    intro reg n h
    have hstep := count_step dims qn fn reg n a h
    have h1 : alookup
        (⟨(reg.metadata.register (qn ++ "_calls") dims).2,
          reg.flat.updateAt (resolvedKey (qn ++ "_calls") dims) Metric.inc⟩ :
            MetricsRegistry).flat.metrics
        (resolvedKey (qn ++ "_calls") dims) = some (.counter (n + 1)) := by
      simp [FlatRegistry.updateAt, alookup_aupdate_self, h, Metric.inc]
    obtain ⟨ih1, ih2⟩ := ih _ (n + 1) h1
    constructor
    · simp [runCalls, hstep, ih1]
    · rw [show (runCalls (count_calls_with_dims dims qn fn) reg (a :: rest)).2
            = (runCalls (count_calls_with_dims dims qn fn)
                ⟨(reg.metadata.register (qn ++ "_calls") dims).2,
                 reg.flat.updateAt (resolvedKey (qn ++ "_calls") dims)
                   Metric.inc⟩ rest).2 by simp [runCalls, hstep]]
      rw [ih2]
      congr 1
      push_cast [List.length_cons]
      ring

/-- C6: the `count_calls_with_dims` decorator increments the counter named
`"<qualname>_calls"` (under the attached dimensions) by exactly one per
invocation and returns the wrapped function's results unchanged: a
sequence of calls starting from a fresh registry returns exactly the
wrapped function's outcomes and leaves the counter at the number of calls;
in particular three calls leave the counter at exactly 3. -/
theorem count_calls_increments_counter {α : Type} (dims : Dims) (qn : String)
    (fn : α → Except String PyVal) (a : α) (args : List α) :
    (runCalls (count_calls_with_dims dims qn fn) MetricsRegistry.new
      (a :: args)).1 = (a :: args).map fn ∧
    counterValueAt (runCalls (count_calls_with_dims dims qn fn)
        MetricsRegistry.new (a :: args)).2
      (resolvedKey (qn ++ "_calls") dims) = some (args.length + 1) ∧
    counterValueAt (runCalls (count_calls_with_dims ([] : Dims) "f"
        (fun _ : Unit => Except.ok (PyVal.int 0))) MetricsRegistry.new
        [(), (), ()]).2 (resolvedKey "f_calls" []) = some 3 := by
  have hfresh : count_calls_with_dims dims qn fn MetricsRegistry.new a =
      (fn a, ⟨⟨[(resolvedKey (qn ++ "_calls") dims, dims)]⟩,
              ⟨[(resolvedKey (qn ++ "_calls") dims, .counter 1)]⟩⟩) := by
    simp [count_calls_with_dims, globalCounter, MetricsRegistry.counter,
      MetricMetadata.register, FlatRegistry.counter, FlatRegistry.getOrCreate,
      MetricsRegistry.new, alookup, FlatRegistry.updateAt, aupdate, Metric.inc]
  have h1 : alookup
      ([(resolvedKey (qn ++ "_calls") dims, Metric.counter 1)])
      (resolvedKey (qn ++ "_calls") dims) = some (.counter 1) := by
    simp [alookup]
  obtain ⟨hr, hc⟩ := countCalls_run dims qn fn args
    ⟨⟨[(resolvedKey (qn ++ "_calls") dims, dims)]⟩,
     ⟨[(resolvedKey (qn ++ "_calls") dims, .counter 1)]⟩⟩ 1 h1
  refine ⟨?_, ?_, by decide⟩
  · simp [runCalls, hfresh, hr]
  · rw [show (runCalls (count_calls_with_dims dims qn fn) MetricsRegistry.new
          (a :: args)).2
        = (runCalls (count_calls_with_dims dims qn fn)
            ⟨⟨[(resolvedKey (qn ++ "_calls") dims, dims)]⟩,
             ⟨[(resolvedKey (qn ++ "_calls") dims, .counter 1)]⟩⟩ args).2 by
        simp [runCalls, hfresh]]
    rw [hc]
    congr 1
    push_cast [List.length_cons]
    ring

theorem recordedValues_cons {α : Type} (fn : α → Except String PyVal) (a : α)
    (args : List α) :
    recordedValues fn (a :: args) =
      recordedValues fn [a] ++ recordedValues fn args := by
  unfold recordedValues
  rcases hfa : fn a with e | v
  · simp [hfa]
  · by_cases ht : typeIsIntOrFloat v <;> simp [hfa, ht]

theorem hist_step_error {α : Type} (dims : Dims) (qn : String)
    (fn : α → Except String PyVal) (reg : MetricsRegistry) (vs : List PyVal)
    (a : α) (e : String)
    (h : alookup reg.flat.metrics (resolvedKey (qn ++ "_calls") dims) =
      some (.histogram vs)) (hfa : fn a = .error e) :
    hist_calls_with_dims dims qn fn reg a =
      (.error e, ⟨(reg.metadata.register (qn ++ "_calls") dims).2, reg.flat⟩) := by
  simp [hist_calls_with_dims, globalHistogram, MetricsRegistry.histogram,
    MetricMetadata.register, FlatRegistry.histogram, FlatRegistry.getOrCreate,
    h, Metric.kind, hfa]

theorem hist_step_record {α : Type} (dims : Dims) (qn : String)
    (fn : α → Except String PyVal) (reg : MetricsRegistry) (vs : List PyVal)
    (a : α) (v : PyVal)
    (h : alookup reg.flat.metrics (resolvedKey (qn ++ "_calls") dims) =
      some (.histogram vs)) (hfa : fn a = .ok v)
    (ht : typeIsIntOrFloat v = true) :
    hist_calls_with_dims dims qn fn reg a =
      (.ok v, ⟨(reg.metadata.register (qn ++ "_calls") dims).2,
               reg.flat.updateAt (resolvedKey (qn ++ "_calls") dims)
                 (Metric.update v)⟩) := by
  simp [hist_calls_with_dims, globalHistogram, MetricsRegistry.histogram,
    MetricMetadata.register, FlatRegistry.histogram, FlatRegistry.getOrCreate,
    h, Metric.kind, hfa, ht]

theorem hist_step_skip {α : Type} (dims : Dims) (qn : String)
    (fn : α → Except String PyVal) (reg : MetricsRegistry) (vs : List PyVal)
    (a : α) (v : PyVal)
    (h : alookup reg.flat.metrics (resolvedKey (qn ++ "_calls") dims) =
      some (.histogram vs)) (hfa : fn a = .ok v)
    (ht : typeIsIntOrFloat v = false) :
    hist_calls_with_dims dims qn fn reg a =
      (.ok v, ⟨(reg.metadata.register (qn ++ "_calls") dims).2, reg.flat⟩) := by
  simp [hist_calls_with_dims, globalHistogram, MetricsRegistry.histogram,
    MetricMetadata.register, FlatRegistry.histogram, FlatRegistry.getOrCreate,
    h, Metric.kind, hfa, ht]

theorem histCalls_run {α : Type} (dims : Dims) (qn : String)
    (fn : α → Except String PyVal) (args : List α) :
    ∀ (reg : MetricsRegistry) (vs : List PyVal),
      alookup reg.flat.metrics (resolvedKey (qn ++ "_calls") dims) =
        some (.histogram vs) →
      (runCalls (hist_calls_with_dims dims qn fn) reg args).1 = args.map fn ∧
      histValuesAt (runCalls (hist_calls_with_dims dims qn fn) reg args).2
        (resolvedKey (qn ++ "_calls") dims) =
        some (vs ++ recordedValues fn args) := by
  induction args with
  | nil =>
    intro reg vs h
    exact ⟨rfl, by simp [runCalls, histValuesAt, h, recordedValues]⟩
  | cons a rest ih =>
    intro reg vs h
    rcases hfa : fn a with e | v
    · have hstep := hist_step_error dims qn fn reg vs a e h hfa
      have h1 : alookup
          (⟨(reg.metadata.register (qn ++ "_calls") dims).2, reg.flat⟩ :
            MetricsRegistry).flat.metrics
          (resolvedKey (qn ++ "_calls") dims) = some (.histogram vs) := h
      obtain ⟨ih1, ih2⟩ := ih _ vs h1
      refine ⟨by simp [runCalls, hstep, ih1, hfa], ?_⟩
      rw [show (runCalls (hist_calls_with_dims dims qn fn) reg (a :: rest)).2
            = (runCalls (hist_calls_with_dims dims qn fn)
                ⟨(reg.metadata.register (qn ++ "_calls") dims).2, reg.flat⟩
                rest).2 by simp [runCalls, hstep]]
      rw [ih2, recordedValues_cons]
      simp [recordedValues, hfa]
    · by_cases ht : typeIsIntOrFloat v
      · have hstep := hist_step_record dims qn fn reg vs a v h hfa ht
        have h1 : alookup
            (⟨(reg.metadata.register (qn ++ "_calls") dims).2,
              reg.flat.updateAt (resolvedKey (qn ++ "_calls") dims)
                (Metric.update v)⟩ : MetricsRegistry).flat.metrics
            (resolvedKey (qn ++ "_calls") dims) =
            some (.histogram (vs ++ [v])) := by
          simp [FlatRegistry.updateAt, alookup_aupdate_self, h, Metric.update]
        obtain ⟨ih1, ih2⟩ := ih _ (vs ++ [v]) h1
        refine ⟨by simp [runCalls, hstep, ih1, hfa], ?_⟩
        rw [show (runCalls (hist_calls_with_dims dims qn fn) reg (a :: rest)).2
              = (runCalls (hist_calls_with_dims dims qn fn)
                  ⟨(reg.metadata.register (qn ++ "_calls") dims).2,
                   reg.flat.updateAt (resolvedKey (qn ++ "_calls") dims)
                     (Metric.update v)⟩ rest).2 by simp [runCalls, hstep]]
        rw [ih2, recordedValues_cons]
        simp [recordedValues, hfa, ht]
      · have ht2 : typeIsIntOrFloat v = false := by simpa using ht
        have hstep := hist_step_skip dims qn fn reg vs a v h hfa ht2
        have h1 : alookup
            (⟨(reg.metadata.register (qn ++ "_calls") dims).2, reg.flat⟩ :
              MetricsRegistry).flat.metrics
            (resolvedKey (qn ++ "_calls") dims) = some (.histogram vs) := h
        obtain ⟨ih1, ih2⟩ := ih _ vs h1
        refine ⟨by simp [runCalls, hstep, ih1, hfa], ?_⟩
        rw [show (runCalls (hist_calls_with_dims dims qn fn) reg (a :: rest)).2
              = (runCalls (hist_calls_with_dims dims qn fn)
                  ⟨(reg.metadata.register (qn ++ "_calls") dims).2, reg.flat⟩
                  rest).2 by simp [runCalls, hstep]]
        rw [ih2, recordedValues_cons]
        simp [recordedValues, hfa, ht2]

theorem hist_first_step {α : Type} (dims : Dims) (qn : String)
    (fn : α → Except String PyVal) (a : α) :
    hist_calls_with_dims dims qn fn MetricsRegistry.new a =
      (fn a, ⟨⟨[(resolvedKey (qn ++ "_calls") dims, dims)]⟩,
              ⟨[(resolvedKey (qn ++ "_calls") dims,
                 .histogram (recordedValues fn [a]))]⟩⟩) := by
  rcases hfa : fn a with e | v
  · simp [hist_calls_with_dims, globalHistogram, MetricsRegistry.histogram,
      MetricMetadata.register, FlatRegistry.histogram, FlatRegistry.getOrCreate,
      MetricsRegistry.new, alookup, hfa, recordedValues]
  · by_cases ht : typeIsIntOrFloat v <;>
      simp [hist_calls_with_dims, globalHistogram, MetricsRegistry.histogram,
        MetricMetadata.register, FlatRegistry.histogram,
        FlatRegistry.getOrCreate, MetricsRegistry.new, alookup,
        FlatRegistry.updateAt, aupdate, Metric.update, hfa, ht, recordedValues]

/-- C7: a `hist_calls_with_dims`-wrapped function returns every call's
outcome unchanged (including non-numeric returns, which raise no error)
and records a returned value into the histogram named
`"<qualname>_calls"` exactly when the value is an integer or
floating-point scalar (runtime type `int` or `float`): over any call
sequence from a fresh registry the histogram's observations are exactly
the numeric returns in order; in particular returns `[1, 2.5, "x", 3]`
across 4 calls leave exactly 3 recorded observations. -/
theorem hist_calls_records_numeric_returns {α : Type} (dims : Dims)
    (qn : String) (fn : α → Except String PyVal) (a : α) (args : List α) :
    (runCalls (hist_calls_with_dims dims qn fn) MetricsRegistry.new
      (a :: args)).1 = (a :: args).map fn ∧
    histValuesAt (runCalls (hist_calls_with_dims dims qn fn)
        MetricsRegistry.new (a :: args)).2
      (resolvedKey (qn ++ "_calls") dims) =
      some (recordedValues fn (a :: args)) ∧
    histValuesAt (runCalls (hist_calls_with_dims ([] : Dims) "f"
        (fun v : PyVal => Except.ok v)) MetricsRegistry.new
        [PyVal.int 1, PyVal.float (mkRat 5 2), PyVal.str "x", PyVal.int 3]).2
      (resolvedKey "f_calls" []) =
      some [PyVal.int 1, PyVal.float (mkRat 5 2), PyVal.int 3] := by
  have hfresh := hist_first_step dims qn fn a
  have h1 : alookup
      ([(resolvedKey (qn ++ "_calls") dims,
         Metric.histogram (recordedValues fn [a]))])
      (resolvedKey (qn ++ "_calls") dims) =
      some (.histogram (recordedValues fn [a])) := by
    simp [alookup]
  obtain ⟨hr, hv⟩ := histCalls_run dims qn fn args
    ⟨⟨[(resolvedKey (qn ++ "_calls") dims, dims)]⟩,
     ⟨[(resolvedKey (qn ++ "_calls") dims,
        .histogram (recordedValues fn [a]))]⟩⟩ (recordedValues fn [a]) h1
  refine ⟨?_, ?_, by decide⟩
  · simp [runCalls, hfresh, hr]
  · rw [show (runCalls (hist_calls_with_dims dims qn fn) MetricsRegistry.new
          (a :: args)).2
        = (runCalls (hist_calls_with_dims dims qn fn)
            ⟨⟨[(resolvedKey (qn ++ "_calls") dims, dims)]⟩,
             ⟨[(resolvedKey (qn ++ "_calls") dims,
                .histogram (recordedValues fn [a]))]⟩⟩ args).2 by
        simp [runCalls, hfresh]]
    rw [hv, recordedValues_cons fn a args]

/-- C8: a wrapped-function exception propagates unchanged through all four
decorators (the wrapped call's outcome is the original error), and the
`time_calls_with_dims` decorator's scoped timing region still records
exactly one timing sample into the timer named `"<qualname>_calls"` before
the exception continues propagating. -/
theorem decorators_propagate_exceptions {α : Type} (dims : Dims)
    (qn : String) (fn : α → Except String PyVal) (a : α) (e : String)
    (h : fn a = .error e) :
    (count_calls_with_dims dims qn fn MetricsRegistry.new a).1 = .error e ∧
    (meter_calls_with_dims dims qn fn MetricsRegistry.new a).1 = .error e ∧
    (hist_calls_with_dims dims qn fn MetricsRegistry.new a).1 = .error e ∧
    (time_calls_with_dims dims qn fn MetricsRegistry.new a).1 = .error e ∧
    timerSamplesAt (time_calls_with_dims dims qn fn MetricsRegistry.new a).2
      (resolvedKey (qn ++ "_calls") dims) = some 1 := by
  refine ⟨?_, ?_, ?_, ?_, ?_⟩ <;>
    simp [count_calls_with_dims, meter_calls_with_dims, hist_calls_with_dims,
      time_calls_with_dims, globalCounter, globalMeter, globalHistogram,
      globalTimer, MetricsRegistry.counter, MetricsRegistry.meter,
      MetricsRegistry.histogram, MetricsRegistry.timer, MetricsRegistry.new,
      MetricMetadata.register, FlatRegistry.counter, FlatRegistry.meter,
      FlatRegistry.histogram, FlatRegistry.timer, FlatRegistry.getOrCreate,
      alookup, FlatRegistry.updateAt, aupdate, Metric.recordSample,
      timerSamplesAt, h]

theorem decorators_propagate_exceptions_witness :
    (count_calls_with_dims ([] : Dims) "f"
      (fun _ : Unit => (Except.error "boom" : Except String PyVal))
      MetricsRegistry.new ()).1 = Except.error "boom" ∧
    (meter_calls_with_dims ([] : Dims) "f"
      (fun _ : Unit => (Except.error "boom" : Except String PyVal))
      MetricsRegistry.new ()).1 = Except.error "boom" ∧
    (hist_calls_with_dims ([] : Dims) "f"
      (fun _ : Unit => (Except.error "boom" : Except String PyVal))
      MetricsRegistry.new ()).1 = Except.error "boom" ∧
    (time_calls_with_dims ([] : Dims) "f"
      (fun _ : Unit => (Except.error "boom" : Except String PyVal))
      MetricsRegistry.new ()).1 = Except.error "boom" ∧
    timerSamplesAt (time_calls_with_dims ([] : Dims) "f"
        (fun _ : Unit => (Except.error "boom" : Except String PyVal))
        MetricsRegistry.new ()).2
      (resolvedKey ("f" ++ "_calls") []) = some 1 :=
  decorators_propagate_exceptions [] "f"
    (fun _ => Except.error "boom") () "boom" rfl

/-- C10: the `hist_calls_with_dims` decorator records a return value only
when its exact runtime type is `int` or `float`: a return value that is
a numeric scalar but of a different runtime type — a boolean, or a value
of a proper subclass of `int` or `float` — is returned unchanged and not
recorded into the histogram (the histogram's observations are exactly
what they were, or an empty fresh histogram). -/
theorem hist_calls_skips_exact_type_mismatch {α : Type} (dims : Dims)
    (qn : String) (fn : α → Except String PyVal) (a : α) (v : PyVal)
    (reg : MetricsRegistry) (hv : fn a = .ok v)
    (hnum : isNumericScalar v = true) (hty : typeIsIntOrFloat v = false)
    (hreg : alookup reg.flat.metrics (resolvedKey (qn ++ "_calls") dims) =
        Option.none ∨
      ∃ vs, alookup reg.flat.metrics (resolvedKey (qn ++ "_calls") dims) =
        some (.histogram vs)) :
    (hist_calls_with_dims dims qn fn reg a).1 = .ok v ∧
    histValuesAt (hist_calls_with_dims dims qn fn reg a).2
      (resolvedKey (qn ++ "_calls") dims) =
      some ((histValuesAt reg (resolvedKey (qn ++ "_calls") dims)).getD []) := by
  rcases hreg with hnone | ⟨vs, hsome⟩
  · constructor <;>
      simp [hist_calls_with_dims, globalHistogram, MetricsRegistry.histogram,
        MetricMetadata.register, FlatRegistry.histogram,
        FlatRegistry.getOrCreate, hnone, hv, hty, histValuesAt, alookup]
  · constructor <;>
      simp [hist_calls_with_dims, globalHistogram, MetricsRegistry.histogram,
        MetricMetadata.register, FlatRegistry.histogram,
        FlatRegistry.getOrCreate, hsome, Metric.kind, hv, hty, histValuesAt]

theorem hist_calls_skips_exact_type_mismatch_witness :
    (hist_calls_with_dims ([] : Dims) "f"
      (fun _ : Unit => (Except.ok (PyVal.bool true) : Except String PyVal))
      MetricsRegistry.new ()).1 = Except.ok (PyVal.bool true) ∧
    histValuesAt (hist_calls_with_dims ([] : Dims) "f"
        (fun _ : Unit => (Except.ok (PyVal.bool true) : Except String PyVal))
        MetricsRegistry.new ()).2
      (resolvedKey ("f" ++ "_calls") []) =
      some ((histValuesAt MetricsRegistry.new
        (resolvedKey ("f" ++ "_calls") [])).getD []) :=
  hist_calls_skips_exact_type_mismatch [] "f"
    (fun _ => Except.ok (PyVal.bool true)) () (PyVal.bool true)
    MetricsRegistry.new rfl rfl rfl (Or.inl rfl)

end SignalFx
